import Mathlib

/-! Formal model of the PhysTwin evaluation and rendering utility scripts
(`evaluate_chamfer.py`, `gs_render.py`), embedded over exact rational
arithmetic.  Lists model tensors; `Option` models Python exceptions raised
by out-of-range tensor indexing; the `Option ℚ` inside a result models the
NaN that `np.mean` produces on an empty array.  External library calls
(pytorch3d's `chamfer_distance` and `ball_query`, kornia's
`create_meshgrid`, torch's round-half-to-even rounding) are modelled from
their documented contracts, which the repository treats as assumed. -/

namespace PhysTwin

/-- A 3D point with rational coordinates (models a float32 3-vector). -/
structure P3 where
  x : ℚ
  y : ℚ
  z : ℚ
  deriving DecidableEq

/-- L1 (Manhattan) distance between two 3D points. -/
def l1dist (p q : P3) : ℚ :=
  |p.x - q.x| + |p.y - q.y| + |p.z - q.z|

/-- Distance from `p` to its L1-nearest neighbour in `ys` (0 when `ys` is
empty; the scripts never evaluate that case). -/
def minL1 (p : P3) (ys : List P3) : ℚ :=
  match ys with
  | [] => 0
  | q :: qs => qs.foldl (fun acc r => min acc (l1dist p r)) (l1dist p q)

/-- Model of pytorch3d's `chamfer_distance(x, y, single_directional=True,
norm=1)` on single-batch point clouds: per its documentation, the
single-directional form measures only the x→y direction, i.e. the mean,
over the points of the FIRST argument `xs`, of the L1 distance to the
nearest point of the SECOND argument `ys`. -/
def chamferSingleL1 (xs ys : List P3) : ℚ :=
  ((xs.map (fun p => minL1 p ys)).sum) / xs.length

/-- Boolean-mask selection, the semantics of `tensor[mask]` indexing:
keep exactly the entries of `xs` whose mask bit is true. -/
def maskSelect {α : Type} (mask : List Bool) (xs : List α) : List α :=
  (mask.zip xs).filterMap (fun bx => if bx.1 then some bx.2 else none)

/-- Python-style list indexing with negative-index wrap-around:
`l[i]` for `i ≥ 0`, `l[len l + i]` for `-len l ≤ i < 0`, and an
IndexError (`none`) otherwise. -/
def pyGet {α : Type} (l : List α) (i : ℤ) : Option α :=
  if 0 ≤ i then l[i.toNat]?
  else if 0 ≤ (l.length : ℤ) + i then l[((l.length : ℤ) + i).toNat]?
  else none

/-- One iteration of the frame loop of `evaluate_prediction`
(evaluate_chamfer.py lines 46-65): read the frame's predicted vertices,
ground-truth points, visibility mask and the (unused) motion-validity
flags of the previous frame, then compute the one-directional L1 Chamfer
distance from the visible ground-truth points (first argument of
`chamfer_distance`) to the first `nsp` predicted vertices (second
argument).  `none` models a Python exception (index out of range, or a
boolean-mask shape mismatch). -/
def frameStep (V P : List (List P3)) (Vis M : List (List Bool))
    (nsp : ℕ) (f : ℕ) : Option ℚ := do
  let x ← V[f]?
  let pts ← P[f]?
  let vis ← Vis[f]?
  let _mv ← pyGet M ((f : ℤ) - 1)
  if vis.length = pts.length then
    some (chamferSingleL1 (maskSelect vis pts) (x.take nsp))
  else none

/-- Modelled from the spec: the per-frame error as the claim words it,
with the roles of the two point sets exchanged — a one-directional L1
Chamfer distance measured FROM the predicted surface points TO the
visible ground-truth points.  Written only to be compared with
`frameStep`, which follows the source. -/
def frameStepPredToGT (V P : List (List P3)) (Vis M : List (List Bool))
    (nsp : ℕ) (f : ℕ) : Option ℚ := do
  let x ← V[f]?
  let pts ← P[f]?
  let vis ← Vis[f]?
  let _mv ← pyGet M ((f : ℤ) - 1)
  if vis.length = pts.length then
    some (chamferSingleL1 (x.take nsp) (maskSelect vis pts))
  else none

/-- The frame indices iterated by `range(start_frame, end_frame)`. -/
def framesEvaluated (startF endF : ℕ) : List ℕ :=
  List.range' startF (endF - startF)

/-- Model of `evaluate_prediction` (evaluate_chamfer.py lines 23-74):
run `frameStep` over every frame of `range(start_frame, end_frame)` and
report the pair `(frame_len, chamfer_error)`, the count of accumulated
per-frame errors and their arithmetic mean (`none` standing for the NaN
that `np.mean` yields on an empty list). -/
def evaluatePrediction (startF endF : ℕ) (V P : List (List P3))
    (Vis M : List (List Bool)) (nsp : ℕ) : Option (ℕ × Option ℚ) :=
  ((framesEvaluated startF endF).mapM (frameStep V P Vis M nsp)).map
    (fun errs =>
      (errs.length,
       if errs.length = 0 then none else some (errs.sum / (errs.length : ℚ))))

/-- Model of the per-case body of the `__main__` driver of
evaluate_chamfer.py (lines 105-142): derive `num_surface_points` from the
data, assert that the test split's frame count equals the number of
predicted frames, and only then evaluate the train split (always from
start frame 1) and the test split.  An `Except.error` models the
AssertionError. -/
def mainCase (V P : List (List P3)) (Vis M : List (List Bool))
    (surfaceCount trainFrame testFrame : ℕ) :
    Except String (Option (ℕ × Option ℚ) × Option (ℕ × Option ℚ)) :=
  let nsp := (P.getD 0 []).length + surfaceCount
  if testFrame = V.length then
    Except.ok (evaluatePrediction 1 trainFrame V P Vis M nsp,
               evaluatePrediction trainFrame testFrame V P Vis M nsp)
  else
    Except.error "Test frame mismatch"

/-- A 3×3 rational matrix with explicit entries (row-major `aij`). -/
structure Mat3 where
  a00 : ℚ
  a01 : ℚ
  a02 : ℚ
  a10 : ℚ
  a11 : ℚ
  a12 : ℚ
  a20 : ℚ
  a21 : ℚ
  a22 : ℚ
  deriving DecidableEq

/-- A camera view as used by `remove_gaussians_with_mask`: image size,
intrinsics `K`, extrinsics `R`, `T`, and a per-pixel alpha mask indexed
as `alphaMask row column`. -/
structure View where
  imageHeight : ℕ
  imageWidth : ℕ
  K : Mat3
  R : Mat3
  T : P3
  alphaMask : ℕ → ℕ → ℚ

/-- The aligned per-point attribute arrays of a `GaussianModel`
(`_xyz`, `_features_dc`, `_features_rest`, `_scaling`, `_rotation`,
`_opacity`).  The four payload types are abstract since the pruning code
never inspects them; `opacity` stores the activated opacity
(`get_opacity`), the value the opacity threshold is compared against —
the external activation is elementwise, so index alignment with the raw
stored array is unaffected. -/
structure Gaussians (α β γ δ : Type) where
  xyz : List P3
  featuresDC : List α
  featuresRest : List β
  scaling : List γ
  rotation : List δ
  opacity : List ℚ

/-- Round half to even, the rounding mode of `torch.round`. -/
def roundHalfEven (q : ℚ) : ℤ :=
  if q - ⌊q⌋ < 1/2 then ⌊q⌋
  else if 1/2 < q - ⌊q⌋ then ⌊q⌋ + 1
  else if ⌊q⌋ % 2 = 0 then ⌊q⌋ else ⌊q⌋ + 1

/-- Camera-space position of `p` under a view: the top 3×3 block of the
world-to-camera matrix is `R.transpose()` and its translation column is
`T` (gs_render.py lines 190-200). -/
def camPoint (vw : View) (p : P3) : P3 :=
  ⟨vw.R.a00 * p.x + vw.R.a10 * p.y + vw.R.a20 * p.z + vw.T.x,
   vw.R.a01 * p.x + vw.R.a11 * p.y + vw.R.a21 * p.z + vw.T.y,
   vw.R.a02 * p.x + vw.R.a12 * p.y + vw.R.a22 * p.z + vw.T.z⟩

/-- Normalisation by the z-coordinate (gs_render.py line 201). -/
def normPoint (vw : View) (p : P3) : P3 :=
  let c := camPoint vw p
  ⟨c.x / c.z, c.y / c.z, c.z / c.z⟩

/-- Rounded integer pixel coordinates `(u, v)` of a gaussian position:
multiply the z-normalised camera point by `Kᵀ`, keep the first two
components, and round (gs_render.py lines 203-205). -/
def projUV (vw : View) (p : P3) : ℤ × ℤ :=
  let n := normPoint vw p
  (roundHalfEven (vw.K.a00 * n.x + vw.K.a01 * n.y + vw.K.a02 * n.z),
   roundHalfEven (vw.K.a10 * n.x + vw.K.a11 * n.y + vw.K.a12 * n.z))

/-- The per-view visibility condition of the counting loop (gs_render.py
lines 209-214): the rounded projection lies inside the image bounds and
the view's alpha mask is strictly positive at that pixel. -/
def visCond (vw : View) (p : P3) : Bool :=
  let uv := projUV vw p
  decide (0 ≤ uv.1) && decide (uv.1 < (vw.imageWidth : ℤ)) &&
  decide (0 ≤ uv.2) && decide (uv.2 < (vw.imageHeight : ℤ)) &&
  decide (0 < vw.alphaMask uv.2.toNat uv.1.toNat)

/-- The per-gaussian visibility counters after the view loop of
`remove_gaussians_with_mask` (gs_render.py lines 183-214): start from
zeros and, for each view, increment the counter of every gaussian whose
`visCond` holds. -/
def gaussianViewCounter (xyz : List P3) (views : List View) : List ℕ :=
  views.foldl
    (fun ctr vw =>
      (ctr.zip xyz).map (fun cp => if visCond vw cp.2 then cp.1 + 1 else cp.1))
    (List.replicate xyz.length 0)

/-- The in-code constant `VIEW_THRESHOLD` (gs_render.py line 217). -/
def viewThreshold : ℚ := 1

/-- The survival mask `mask3d` of `remove_gaussians_with_mask`
(gs_render.py line 218): counter ≥ len(views) * VIEW_THRESHOLD. -/
def keepMaskOfViews (xyz : List P3) (views : List View) : List Bool :=
  (gaussianViewCounter xyz views).map
    (fun (c : ℕ) => decide ((views.length : ℚ) * viewThreshold ≤ (c : ℚ)))

/-- Filtering every attribute array of a gaussian set by one boolean
mask — the six `new_gaussians._attr = gaussians._attr[mask3d]` lines
shared by all three pruning functions. -/
def applyMask3d {α β γ δ : Type} (g : Gaussians α β γ δ) (m : List Bool) :
    Gaussians α β γ δ :=
  ⟨maskSelect m g.xyz, maskSelect m g.featuresDC, maskSelect m g.featuresRest,
   maskSelect m g.scaling, maskSelect m g.rotation, maskSelect m g.opacity⟩

/-- Model of `remove_gaussians_with_mask` (gs_render.py lines 180-228). -/
def removeGaussiansWithMask {α β γ δ : Type} (g : Gaussians α β γ δ)
    (views : List View) : Gaussians α β γ δ :=
  applyMask3d g (keepMaskOfViews g.xyz views)

/-- The default `opacity_threshold` of
`remove_gaussians_with_low_opacity`. -/
def defaultOpacityThreshold : ℚ := 1/10

/-- Model of `remove_gaussians_with_low_opacity` (gs_render.py lines
231-248): keep exactly the points with `opacity > opacity_threshold`. -/
def removeGaussiansWithLowOpacity {α β γ δ : Type} (g : Gaussians α β γ δ)
    (threshold : ℚ) : Gaussians α β γ δ :=
  applyMask3d g (g.opacity.map (fun o => decide (threshold < o)))

/-- Squared Euclidean distance between two 3D points. -/
def dist2 (p q : P3) : ℚ :=
  (p.x - q.x) ^ 2 + (p.y - q.y) ^ 2 + (p.z - q.z) ^ 2

/-- Model of the hit test done with pytorch3d's
`ball_query(xyz, mesh_points, K=1, radius=r)` followed by `idx != -1`
(gs_render.py lines 258-259), per the library's documented contract: a
gaussian position registers a hit exactly when some mesh sample point
lies within Euclidean distance `r` of it. -/
def ballQueryHit (meshPts : List P3) (r : ℚ) (p : P3) : Bool :=
  meshPts.any (fun q => decide (dist2 p q ≤ r ^ 2))

/-- Model of `remove_gaussians_with_point_mesh_distance` (gs_render.py
lines 251-270). -/
def removeGaussiansWithPointMeshDistance {α β γ δ : Type}
    (g : Gaussians α β γ δ) (meshPts : List P3) (r : ℚ) :
    Gaussians α β γ δ :=
  applyMask3d g (g.xyz.map (ballQueryHit meshPts r))

/-- The in-place update `K *= anti_aliasing_factor; K[2, 2] = 1`
performed by `get_ray_directions` when supersampling (gs_render.py lines
158-159). -/
def scaleKForAA (K : Mat3) (f : ℚ) : Mat3 :=
  ⟨f * K.a00, f * K.a01, f * K.a02,
   f * K.a10, f * K.a11, f * K.a12,
   f * K.a20, f * K.a21, 1⟩

/-- Model of `get_ray_directions` (gs_render.py lines 130-177) with
`flatten` left out (a value-preserving reshape) and the two
`torch.rand_like` draws supplied through the oracle `rnd row col`.
The first component of the result is the final state of the caller's
`K` tensor, capturing the in-place mutation; the second component is the
pixel grid of ray directions, row `v`, column `u`, built from
`create_meshgrid`'s un-normalised `(u, v)` grid. -/
def getRayDirections (H W : ℕ) (K : Mat3) (random : Bool) (aaf : ℚ)
    (rnd : ℕ → ℕ → ℚ × ℚ) : Mat3 × List (List (ℚ × ℚ × ℚ)) :=
  let H2 := if 1 < aaf then ((H : ℚ) * aaf).floor.toNat else H
  let W2 := if 1 < aaf then ((W : ℚ) * aaf).floor.toNat else W
  let K2 := if 1 < aaf then scaleKForAA K aaf else K
  let dirs := (List.range H2).map (fun (v : ℕ) =>
    (List.range W2).map (fun (u : ℕ) =>
      if random then
        (((u : ℚ) - K2.a02 + (rnd v u).1) / K2.a00,
         ((v : ℚ) - K2.a12 + (rnd v u).2) / K2.a11, (1 : ℚ))
      else
        (((u : ℚ) - K2.a02 + 1/2) / K2.a00,
         ((v : ℚ) - K2.a12 + 1/2) / K2.a11, (1 : ℚ))))
  (K2, dirs)

/-- Flattening of the direction grid, the `reshape(-1, 3)` step. -/
def flattenRays (dirs : List (List (ℚ × ℚ × ℚ))) : List (ℚ × ℚ × ℚ) :=
  dirs.flatten

/-- The positions (in increasing order) of the true bits of a mask. -/
def selIndices : List Bool → List ℕ
  | [] => []
  | true :: m => 0 :: (selIndices m).map (· + 1)
  | false :: m => (selIndices m).map (· + 1)

lemma maskSelect_cons_true {α : Type} (m : List Bool) (x : α) (xs : List α) :
    maskSelect (true :: m) (x :: xs) = x :: maskSelect m xs := by
  simp [maskSelect]

lemma maskSelect_cons_false {α : Type} (m : List Bool) (x : α) (xs : List α) :
    maskSelect (false :: m) (x :: xs) = maskSelect m xs := by
  simp [maskSelect]

lemma length_maskSelect {α : Type} :
    ∀ (m : List Bool) (xs : List α), xs.length = m.length →
      (maskSelect m xs).length = (selIndices m).length := by
  intro m
  induction m with
  | nil => intro xs h; simp [maskSelect, selIndices]
  | cons b m ih =>
    intro xs h
    cases xs with
    | nil => simp at h
    | cons x xs =>
      simp only [List.length_cons, Nat.add_right_cancel_iff] at h
      cases b with
      | true => simp [maskSelect_cons_true, selIndices, ih xs h]
      | false => simp [maskSelect_cons_false, selIndices, ih xs h]

lemma getElem?_maskSelect {α : Type} :
    ∀ (m : List Bool) (xs : List α), xs.length = m.length → ∀ j : ℕ,
      (maskSelect m xs)[j]?
        = ((selIndices m)[j]?).bind (fun i => xs[i]?) := by
  intro m
  induction m with
  | nil => intro xs h j; simp [maskSelect, selIndices]
  | cons b m ih =>
    intro xs h j
    cases xs with
    | nil => simp at h
    | cons x xs =>
      simp only [List.length_cons, Nat.add_right_cancel_iff] at h
      cases b with
      | true =>
        cases j with
        | zero => simp [maskSelect_cons_true, selIndices]
        | succ j =>
          rw [maskSelect_cons_true]
          simp only [List.getElem?_cons_succ, selIndices, List.getElem?_map,
            ih xs h j]
          cases h2 : (selIndices m)[j]? with
          | none => simp
          | some i => simp
      | false =>
        rw [maskSelect_cons_false]
        simp only [selIndices, List.getElem?_map, ih xs h j]
        cases h2 : (selIndices m)[j]? with
        | none => simp
        | some i => simp

lemma selIndices_getElem?_some :
    ∀ (m : List Bool) (j i : ℕ), (selIndices m)[j]? = some i →
      m[i]? = some true := by
  intro m
  induction m with
  | nil => intro j i h; simp [selIndices] at h
  | cons b m ih =>
    intro j i h
    cases b with
    | true =>
      cases j with
      | zero =>
        simp only [selIndices, List.getElem?_cons_zero, Option.some_inj] at h
        simp [← h]
      | succ j =>
        simp only [selIndices, List.getElem?_cons_succ, List.getElem?_map] at h
        cases h2 : (selIndices m)[j]? with
        | none => rw [h2] at h; simp at h
        | some i2 =>
          rw [h2] at h
          simp at h
          subst h
          simpa using ih j i2 h2
    | false =>
      simp only [selIndices, List.getElem?_map] at h
      cases h2 : (selIndices m)[j]? with
      | none => rw [h2] at h; simp at h
      | some i2 =>
        rw [h2] at h
        simp at h
        subst h
        simpa using ih j i2 h2

/-- The alignment invariant of a gaussian set: every attribute array has
the same length as the position array. -/
abbrev aligned {α β γ δ : Type} (g : Gaussians α β γ δ) : Prop :=
  g.featuresDC.length = g.xyz.length ∧ g.featuresRest.length = g.xyz.length ∧
  g.scaling.length = g.xyz.length ∧ g.rotation.length = g.xyz.length ∧
  g.opacity.length = g.xyz.length

/-- `g2` is an aligned sub-selection of `g`: it satisfies the alignment
invariant and every surviving index carries the full attribute tuple of
one input index. -/
def alignedSubselection {α β γ δ : Type} (g g2 : Gaussians α β γ δ) : Prop :=
  aligned g2 ∧ ∀ j : ℕ, j < g2.xyz.length → ∃ i : ℕ, i < g.xyz.length ∧
    g2.xyz[j]? = g.xyz[i]? ∧ g2.featuresDC[j]? = g.featuresDC[i]? ∧
    g2.featuresRest[j]? = g.featuresRest[i]? ∧
    g2.scaling[j]? = g.scaling[i]? ∧ g2.rotation[j]? = g.rotation[i]? ∧
    g2.opacity[j]? = g.opacity[i]?

lemma applyMask3d_alignedSubselection {α β γ δ : Type}
    (g : Gaussians α β γ δ) (m : List Bool) (hm : m.length = g.xyz.length)
    (hg : aligned g) : alignedSubselection g (applyMask3d g m) := by
  obtain ⟨h1, h2, h3, h4, h5⟩ := hg
  have lxyz : g.xyz.length = m.length := hm.symm
  have l1 : g.featuresDC.length = m.length := by rw [h1, hm]
  have l2 : g.featuresRest.length = m.length := by rw [h2, hm]
  have l3 : g.scaling.length = m.length := by rw [h3, hm]
  have l4 : g.rotation.length = m.length := by rw [h4, hm]
  have l5 : g.opacity.length = m.length := by rw [h5, hm]
  constructor
  · refine ⟨?_, ?_, ?_, ?_, ?_⟩ <;>
      simp [applyMask3d, length_maskSelect _ _ lxyz, length_maskSelect _ _ l1,
        length_maskSelect _ _ l2, length_maskSelect _ _ l3,
        length_maskSelect _ _ l4, length_maskSelect _ _ l5]
  · intro j hj
    have hj2 : j < (selIndices m).length := by
      rw [← length_maskSelect m g.xyz lxyz]; exact hj
    obtain ⟨i, hi⟩ : ∃ i, (selIndices m)[j]? = some i :=
      ⟨(selIndices m)[j], List.getElem?_eq_getElem hj2⟩
    have hmi : m[i]? = some true := selIndices_getElem?_some m j i hi
    have hilt : i < m.length := by
      rcases List.getElem?_eq_some_iff.mp hmi with ⟨hl, _⟩
      exact hl
    refine ⟨i, by rw [← hm]; exact hilt, ?_, ?_, ?_, ?_, ?_, ?_⟩ <;>
      simp [applyMask3d, getElem?_maskSelect _ _ lxyz,
        getElem?_maskSelect _ _ l1, getElem?_maskSelect _ _ l2,
        getElem?_maskSelect _ _ l3, getElem?_maskSelect _ _ l4,
        getElem?_maskSelect _ _ l5, hi]

lemma gaussianViewCounter_length (xyz : List P3) (views : List View) :
    (gaussianViewCounter xyz views).length = xyz.length := by
  have key : ∀ (vs : List View) (ctr : List ℕ), ctr.length = xyz.length →
      (vs.foldl
        (fun ctr vw => (ctr.zip xyz).map
          (fun cp => if visCond vw cp.2 then cp.1 + 1 else cp.1)) ctr).length
        = xyz.length := by
    intro vs
    induction vs with
    | nil => intro ctr h; simpa using h
    | cons vw vs ih =>
      intro ctr h
      simp only [List.foldl_cons]
      exact ih _ (by simp [List.length_zip, h])
  exact key views _ (by simp)

/-- Claim C3: every pruning operation preserves the alignment invariant,
and each surviving index keeps the attribute tuple (position, DC
features, rest features, scaling, rotation, opacity) it had at a single
input index. -/
theorem pruning_preserves_alignment {α β γ δ : Type} (g : Gaussians α β γ δ)
    (hg : aligned g) (views : List View) (meshPts : List P3) (r θ : ℚ) :
    alignedSubselection g (removeGaussiansWithMask g views) ∧
    alignedSubselection g (removeGaussiansWithLowOpacity g θ) ∧
    alignedSubselection g (removeGaussiansWithPointMeshDistance g meshPts r) := by
  refine ⟨?_, ?_, ?_⟩
  · exact applyMask3d_alignedSubselection g (keepMaskOfViews g.xyz views)
      (by simp only [keepMaskOfViews, List.length_map,
        gaussianViewCounter_length]) hg
  · exact applyMask3d_alignedSubselection g
      (g.opacity.map (fun o => decide (θ < o)))
      (by simp only [List.length_map]; exact hg.2.2.2.2) hg
  · exact applyMask3d_alignedSubselection g
      (g.xyz.map (ballQueryHit meshPts r))
      (by simp only [List.length_map]) hg

/-- A small concrete aligned gaussian set used by witnesses. -/
def gAlignedEx : Gaussians Unit Unit Unit Unit :=
  ⟨[⟨0, 0, 1⟩, ⟨3, 1, 1⟩], [(), ()], [(), ()], [(), ()], [(), ()], [1, 1/20]⟩

/-- Witness for C3 at a concrete aligned gaussian set. -/
theorem pruning_preserves_alignment_witness :
    aligned gAlignedEx ∧
    (alignedSubselection gAlignedEx (removeGaussiansWithMask gAlignedEx []) ∧
     alignedSubselection gAlignedEx
       (removeGaussiansWithLowOpacity gAlignedEx defaultOpacityThreshold) ∧
     alignedSubselection gAlignedEx
       (removeGaussiansWithPointMeshDistance gAlignedEx [⟨0, 0, 1⟩] 1)) :=
  ⟨by decide, pruning_preserves_alignment gAlignedEx (by decide) [] [⟨0, 0, 1⟩] 1
    defaultOpacityThreshold⟩

/-- A one-point gaussian set whose opacity sits exactly at the default
opacity threshold. -/
def gLowEx : Gaussians Unit Unit Unit Unit :=
  ⟨[⟨0, 0, 0⟩], [()], [()], [()], [()], [1/10]⟩

/-- Counterexample to claim C6 as stated: a point whose opacity equals
the threshold (so is not below it, and by the claim should be kept) is
removed by `remove_gaussians_with_low_opacity`. -/
theorem lowOpacity_at_threshold_removed :
    (removeGaussiansWithLowOpacity gLowEx defaultOpacityThreshold).xyz = [] ∧
    ¬ ((1/10 : ℚ) < defaultOpacityThreshold) := by
  have h3 : (decide (defaultOpacityThreshold < (1/10 : ℚ))) = false := by
    simp [defaultOpacityThreshold]
  refine ⟨?_, ?_⟩
  · simp [removeGaussiansWithLowOpacity, applyMask3d, gLowEx, maskSelect, h3]
    norm_num [defaultOpacityThreshold]
  · unfold defaultOpacityThreshold; exact lt_irrefl _

lemma maskSelect_map_zip {α β : Type} :
    ∀ (xs : List α) (ys : List β) (f : β → Bool), xs.length = ys.length →
      (maskSelect (ys.map f) xs).zip (maskSelect (ys.map f) ys)
        = (xs.zip ys).filter (fun p => f p.2) := by
  intro xs
  induction xs with
  | nil => intro ys f h; cases ys <;> simp_all [maskSelect]
  | cons x xs ih =>
    intro ys f h
    cases ys with
    | nil => simp at h
    | cons y ys =>
      simp only [List.length_cons, Nat.add_right_cancel_iff] at h
      simp only [List.map_cons, List.zip_cons_cons, List.filter_cons]
      cases hf : f y with
      | true =>
        rw [maskSelect_cons_true, maskSelect_cons_true]
        simp [List.zip_cons_cons, ih ys f h]
      | false =>
        rw [maskSelect_cons_false, maskSelect_cons_false]
        simp [ih ys f h]

/-- Claim C6 amended: `remove_gaussians_with_low_opacity` keeps exactly
the points whose opacity strictly exceeds the threshold (so a point at
exactly the threshold is removed): the surviving (position, opacity)
pairs are the input pairs filtered by `threshold < opacity`. -/
theorem lowOpacity_keeps_iff_above_threshold {α β γ δ : Type}
    (g : Gaussians α β γ δ) (threshold : ℚ)
    (h : g.opacity.length = g.xyz.length) :
    ((removeGaussiansWithLowOpacity g threshold).xyz).zip
        ((removeGaussiansWithLowOpacity g threshold).opacity)
      = (g.xyz.zip g.opacity).filter (fun po => decide (threshold < po.2)) := by
  simpa [removeGaussiansWithLowOpacity, applyMask3d] using
    maskSelect_map_zip g.xyz g.opacity (fun o => decide (threshold < o)) h.symm

/-- Witness for the amended C6 at a concrete gaussian set. -/
theorem lowOpacity_keeps_iff_above_threshold_witness :
    gAlignedEx.opacity.length = gAlignedEx.xyz.length ∧
    ((removeGaussiansWithLowOpacity gAlignedEx defaultOpacityThreshold).xyz).zip
        ((removeGaussiansWithLowOpacity gAlignedEx
          defaultOpacityThreshold).opacity)
      = (gAlignedEx.xyz.zip gAlignedEx.opacity).filter
          (fun po => decide (defaultOpacityThreshold < po.2)) :=
  ⟨by decide,
   lowOpacity_keeps_iff_above_threshold gAlignedEx defaultOpacityThreshold
     (by decide)⟩

lemma maskSelect_map_self {α : Type} :
    ∀ (xs : List α) (f : α → Bool), maskSelect (xs.map f) xs = xs.filter f := by
  intro xs
  induction xs with
  | nil => intro f; rfl
  | cons x xs ih =>
    intro f
    simp only [List.map_cons, List.filter_cons]
    cases hf : f x with
    | true => rw [maskSelect_cons_true]; simp [ih]
    | false => rw [maskSelect_cons_false]; simp [ih]

/-- Claim C7: `remove_gaussians_with_point_mesh_distance` keeps exactly
the gaussians for which the ball query registers a hit, and a hit means
some mesh sample point lies within Euclidean distance `r` (stated on
squared distances). -/
theorem meshDistance_keeps_iff_ballQueryHit {α β γ δ : Type}
    (g : Gaussians α β γ δ) (meshPts : List P3) (r : ℚ) :
    (removeGaussiansWithPointMeshDistance g meshPts r).xyz
      = g.xyz.filter (ballQueryHit meshPts r) ∧
    ∀ p : P3, ballQueryHit meshPts r p = true ↔
      ∃ q ∈ meshPts, dist2 p q ≤ r ^ 2 := by
  constructor
  · simpa [removeGaussiansWithPointMeshDistance, applyMask3d] using
      maskSelect_map_self g.xyz (ballQueryHit meshPts r)
  · intro p
    simp [ballQueryHit, List.any_eq_true]

lemma mapM_option_eq_some_length {α β : Type} (f : α → Option β) :
    ∀ (l : List α) (ys : List β), l.mapM f = some ys → ys.length = l.length := by
  intro l
  induction l with
  | nil =>
    intro ys h
    simp only [List.mapM_nil] at h
    simp at h
    simp [← h]
  | cons a l ih =>
    intro ys h
    rw [List.mapM_cons] at h
    cases hfa : f a with
    | none => rw [hfa] at h; simp at h
    | some b =>
      rw [hfa] at h
      cases hml : l.mapM f with
      | none => rw [hml] at h; simp at h
      | some bs =>
        rw [hml] at h
        simp at h
        subst h
        simp [ih bs hml]

lemma mapM_option_congr {α β : Type} (f g : α → Option β) :
    ∀ l : List α, (∀ a ∈ l, f a = g a) → l.mapM f = l.mapM g := by
  intro l
  induction l with
  | nil => intro _; rfl
  | cons a l ih =>
    intro h
    rw [List.mapM_cons, List.mapM_cons, h a (by simp),
      ih (fun b hb => h b (by simp [hb]))]

lemma isSome_getElem?_congr {α β : Type} (l1 : List α) (l2 : List β)
    (h : l1.length = l2.length) (n : ℕ) :
    (l1[n]?).isSome = (l2[n]?).isSome := by
  by_cases hn : n < l1.length
  · rw [List.getElem?_eq_getElem hn, List.getElem?_eq_getElem (by omega)]
    rfl
  · rw [List.getElem?_eq_none (by omega), List.getElem?_eq_none (by omega)]
    rfl

lemma pyGet_isSome_congr {α β : Type} (l1 : List α) (l2 : List β)
    (h : l1.length = l2.length) (i : ℤ) :
    (pyGet l1 i).isSome = (pyGet l2 i).isSome := by
  unfold pyGet
  rw [h]
  split_ifs with h1 h2
  · exact isSome_getElem?_congr l1 l2 h i.toNat
  · exact isSome_getElem?_congr l1 l2 h ((l2.length : ℤ) + i).toNat
  · rfl

lemma frameStep_motions_congr (V P : List (List P3)) (Vis : List (List Bool))
    (M1 M2 : List (List Bool)) (h : M1.length = M2.length) (nsp f : ℕ) :
    frameStep V P Vis M1 nsp f = frameStep V P Vis M2 nsp f := by
  unfold frameStep
  have hs := pyGet_isSome_congr M1 M2 h ((f : ℤ) - 1)
  cases h1 : pyGet M1 ((f : ℤ) - 1) with
  | none =>
    cases h2 : pyGet M2 ((f : ℤ) - 1) with
    | none => rfl
    | some mv2 => rw [h1, h2] at hs; simp at hs
  | some mv =>
    cases h2 : pyGet M2 ((f : ℤ) - 1) with
    | none => rw [h1, h2] at hs; simp at hs
    | some mv2 => rfl

/-- Claim C10: the result of `evaluate_prediction` does not depend on the
boolean contents of `object_motions_valid` — the flags are read but never
used, so two motion-validity inputs of the same length give identical
results. -/
theorem evaluate_ignores_motion_flags (startF endF : ℕ)
    (V P : List (List P3)) (Vis : List (List Bool))
    (M1 M2 : List (List Bool)) (nsp : ℕ) (h : M1.length = M2.length) :
    evaluatePrediction startF endF V P Vis M1 nsp
      = evaluatePrediction startF endF V P Vis M2 nsp := by
  unfold evaluatePrediction
  rw [mapM_option_congr (frameStep V P Vis M1 nsp) (frameStep V P Vis M2 nsp)
    (framesEvaluated startF endF)
    (fun a _ => frameStep_motions_congr V P Vis M1 M2 h nsp a)]

/-- Concrete data for the C1 counterexample: one frame with two predicted
vertices and a single visible ground-truth point. -/
def vC1 : List (List P3) := [[⟨0, 0, 0⟩, ⟨10, 0, 0⟩]]

def pC1 : List (List P3) := [[⟨0, 0, 0⟩]]

def visC1 : List (List Bool) := [[true]]

def mC1 : List (List Bool) := [[true]]

/-- Witness for C10 at concrete inputs differing only in the motion
flags. -/
theorem evaluate_ignores_motion_flags_witness :
    ([[true]] : List (List Bool)).length
        = ([[false]] : List (List Bool)).length ∧
    evaluatePrediction 0 1 vC1 pC1 visC1 [[true]] 2
      = evaluatePrediction 0 1 vC1 pC1 visC1 [[false]] 2 :=
  ⟨rfl, evaluate_ignores_motion_flags 0 1 vC1 pC1 visC1 [[true]] [[false]] 2 rfl⟩

/-- Counterexample to claim C1 as stated: on a concrete frame the code's
per-frame error (ground-truth→predicted, value 0) differs from the
one-directional L1 Chamfer distance measured from the predicted surface
points to the visible ground-truth points (value 5). -/
theorem chamfer_direction_counterexample :
    frameStep vC1 pC1 visC1 mC1 2 0 = some 0 ∧
    frameStepPredToGT vC1 pC1 visC1 mC1 2 0 = some 5 ∧
    some (0 : ℚ) ≠ some (5 : ℚ) := by
  refine ⟨?_, ?_, by norm_num⟩
  · norm_num [frameStep, vC1, pC1, visC1, mC1, pyGet, maskSelect,
      chamferSingleL1, minL1, l1dist, List.filterMap_cons, min_def]
  · norm_num [frameStepPredToGT, vC1, pC1, visC1, mC1, pyGet, maskSelect,
      chamferSingleL1, minL1, l1dist, List.filterMap_cons, min_def]

/-- Claim C1 amended: the per-frame Chamfer error equals the
one-directional L1 Chamfer distance measured FROM the ground-truth points
marked visible in the frame TO the first `nsp` predicted vertices (the
ground-truth→predicted direction is the one measured). -/
theorem frame_error_is_gt_to_pred (V P : List (List P3))
    (Vis M : List (List Bool)) (nsp f : ℕ) (x pts : List P3) (vis : List Bool)
    (hx : V[f]? = some x) (hpts : P[f]? = some pts)
    (hvis : Vis[f]? = some vis) (hm : (pyGet M ((f : ℤ) - 1)).isSome = true)
    (hlen : vis.length = pts.length) :
    frameStep V P Vis M nsp f
      = some (chamferSingleL1 (maskSelect vis pts) (x.take nsp)) := by
  obtain ⟨mv, hmv⟩ := Option.isSome_iff_exists.mp hm
  simp [frameStep, hx, hpts, hvis, hmv, hlen]

/-- Witness for the amended C1 at the concrete frame data. -/
theorem frame_error_is_gt_to_pred_witness :
    vC1[0]? = some [⟨0, 0, 0⟩, ⟨10, 0, 0⟩] ∧ pC1[0]? = some [⟨0, 0, 0⟩] ∧
    visC1[0]? = some [true] ∧ (pyGet mC1 ((0 : ℤ) - 1)).isSome = true ∧
    ([true] : List Bool).length = [(⟨0, 0, 0⟩ : P3)].length ∧
    frameStep vC1 pC1 visC1 mC1 2 0
      = some (chamferSingleL1 (maskSelect [true] [⟨0, 0, 0⟩])
          ([⟨0, 0, 0⟩, ⟨10, 0, 0⟩].take 2)) :=
  ⟨rfl, rfl, rfl, rfl, rfl,
   frame_error_is_gt_to_pred vC1 pC1 visC1 mC1 2 0 _ _ _ rfl rfl rfl rfl rfl⟩

/-- Claim C4: on a non-empty frame range, `frame_len` is the number of
frames `end_frame - start_frame` and `chamfer_error` is the arithmetic
mean of the accumulated per-frame errors. -/
theorem chamfer_mean_and_count (startF endF : ℕ) (V P : List (List P3))
    (Vis M : List (List Bool)) (nsp : ℕ) (n : ℕ) (me : Option ℚ)
    (hne : startF < endF)
    (h : evaluatePrediction startF endF V P Vis M nsp = some (n, me)) :
    n = endF - startF ∧
    ∃ errs : List ℚ,
      (framesEvaluated startF endF).mapM (frameStep V P Vis M nsp)
          = some errs ∧
      errs.length = endF - startF ∧
      me = some (errs.sum / ((endF - startF : ℕ) : ℚ)) := by
  unfold evaluatePrediction at h
  cases hm : (framesEvaluated startF endF).mapM (frameStep V P Vis M nsp) with
  | none => rw [hm] at h; simp at h
  | some errs =>
    rw [hm] at h
    simp only [Option.map_some', Option.some_inj, Prod.mk.injEq] at h
    obtain ⟨hn, hme⟩ := h
    have hlen : errs.length = endF - startF := by
      rw [mapM_option_eq_some_length _ _ _ hm]
      simp [framesEvaluated]
    have hpos : ¬ errs.length = 0 := by omega
    refine ⟨by omega, errs, rfl, hlen, ?_⟩
    rw [← hme, if_neg hpos, hlen]

/-- Concrete three-frame data whose per-frame errors are all zero, used
by the C4 witness. -/
def vZeros : List (List P3) := [[⟨0, 0, 0⟩], [⟨0, 0, 0⟩], [⟨0, 0, 0⟩]]

def visZeros : List (List Bool) := [[true], [true], [true]]

/-- Witness for C4 at a concrete three-frame input evaluated on the range
from frame 1 to frame 3. -/
theorem chamfer_mean_and_count_witness :
    1 < 3 ∧
    evaluatePrediction 1 3 vZeros vZeros visZeros visZeros 1
      = some (2, some 0) ∧
    (2 = 3 - 1 ∧
     ∃ errs : List ℚ,
       (framesEvaluated 1 3).mapM (frameStep vZeros vZeros visZeros visZeros 1)
           = some errs ∧
       errs.length = 3 - 1 ∧
       (some (0 : ℚ) : Option ℚ) = some (errs.sum / ((3 - 1 : ℕ) : ℚ))) := by
  have heval : evaluatePrediction 1 3 vZeros vZeros visZeros visZeros 1
      = some (2, some 0) := by
    norm_num [evaluatePrediction, framesEvaluated, frameStep, vZeros, visZeros,
      pyGet, maskSelect, chamferSingleL1, minL1, l1dist, List.range',
      List.filterMap_cons, min_def, List.mapM, List.mapM.loop]
    intro hcon
    exact absurd hcon (by simp)
  exact ⟨by norm_num, heval,
    chamfer_mean_and_count 1 3 vZeros vZeros visZeros visZeros 1 2 (some 0)
      (by norm_num) heval⟩

/-- Claim C9: the per-case driver raises its assertion exactly when the
test split's frame count differs from the number of predicted frames, and
raises no assertion when they agree. -/
theorem assert_iff_frame_count_mismatch (V P : List (List P3))
    (Vis M : List (List Bool)) (sc trainF testF : ℕ) :
    (∃ s, mainCase V P Vis M sc trainF testF = Except.error s) ↔
      testF ≠ V.length := by
  unfold mainCase
  by_cases h : testF = V.length
  · simp [h]
  · simp [h]

/-- Concrete one-frame data for the C8 counterexample: frame 0's error
is 7 and the split file puts the whole sequence in the test split. -/
def v8Ex : List (List P3) := [[⟨7, 0, 0⟩]]

def p8Ex : List (List P3) := [[⟨0, 0, 0⟩]]

def vis8Ex : List (List Bool) := [[true]]

def m8Ex : List (List Bool) := [[true]]

/-- Counterexample to claim C8 as stated: with `train_frame = 0` the test
split's call evaluates frame 0, so the frame-0 Chamfer error (7) is the
reported test mean and is counted in the reported test frame count. -/
theorem frame_zero_counts_in_test_split :
    framesEvaluated 0 1 = [0] ∧
    mainCase v8Ex p8Ex vis8Ex m8Ex 0 0 1
      = Except.ok (some (0, none), some (1, some 7)) := by
  constructor
  · rfl
  · norm_num [mainCase, evaluatePrediction, framesEvaluated, frameStep, v8Ex,
      p8Ex, vis8Ex, m8Ex, pyGet, maskSelect, chamferSingleL1, minL1, l1dist,
      List.range', List.filterMap_cons, min_def, List.mapM, List.mapM.loop]

/-- Claim C8 amended: when the train split is non-empty
(`1 ≤ train_frame`), frame 0 is in neither the train range (which always
starts at frame 1) nor the test range, and the driver's two
`evaluate_prediction` calls are exactly over those ranges. -/
theorem frame_zero_never_evaluated (trainF testF : ℕ) (h : 1 ≤ trainF)
    (V P : List (List P3)) (Vis M : List (List Bool)) (sc : ℕ) :
    0 ∉ framesEvaluated 1 trainF ∧ 0 ∉ framesEvaluated trainF testF ∧
    (testF = V.length →
      mainCase V P Vis M sc trainF testF
        = Except.ok
            (evaluatePrediction 1 trainF V P Vis M
              ((P.getD 0 []).length + sc),
             evaluatePrediction trainF testF V P Vis M
              ((P.getD 0 []).length + sc))) := by
  refine ⟨?_, ?_, ?_⟩
  · intro hmem
    have := List.mem_range'_1.mp hmem
    omega
  · intro hmem
    have := List.mem_range'_1.mp hmem
    omega
  · intro hok
    unfold mainCase
    rw [if_pos hok]

lemma counterFold_getD (xyz : List P3) :
    ∀ (vs : List View) (ctr : List ℕ), ctr.length = xyz.length →
      ∀ i : ℕ, i < xyz.length →
      ((vs.foldl
          (fun ctr vw => (ctr.zip xyz).map
            (fun cp => if visCond vw cp.2 then cp.1 + 1 else cp.1))
          ctr).getD i 0)
        = ctr.getD i 0
            + vs.countP (fun vw => visCond vw (xyz.getD i ⟨0, 0, 0⟩)) := by
  intro vs
  induction vs with
  | nil => intro ctr h i hi; simp
  | cons vw vs ih =>
    intro ctr h i hi
    rw [List.foldl_cons, ih _ (by simp [h]) i hi]
    have hic : i < ctr.length := by omega
    have hiz : i < (ctr.zip xyz).length := by
      simp only [List.length_zip]
      omega
    have hstep :
        ((ctr.zip xyz).map
            (fun cp => if visCond vw cp.2 then cp.1 + 1 else cp.1)).getD i 0
          = if visCond vw (xyz.getD i ⟨0, 0, 0⟩) then ctr.getD i 0 + 1
            else ctr.getD i 0 := by
      rw [List.getD_eq_getElem _ _ (by simpa using hiz), List.getElem_map,
        List.getElem_zip, List.getD_eq_getElem _ _ hic,
        List.getD_eq_getElem _ _ hi]
    rw [hstep, List.countP_cons]
    by_cases hv : visCond vw (xyz.getD i ⟨0, 0, 0⟩) = true
    · rw [if_pos hv, if_pos hv]
      omega
    · rw [if_neg hv, if_neg hv]
      omega

lemma gaussianViewCounter_getD (xyz : List P3) (views : List View) (i : ℕ)
    (hi : i < xyz.length) :
    (gaussianViewCounter xyz views).getD i 0
      = views.countP (fun vw => visCond vw (xyz.getD i ⟨0, 0, 0⟩)) := by
  unfold gaussianViewCounter
  rw [counterFold_getD xyz views (List.replicate xyz.length 0) (by simp) i hi]
  simp

lemma keepMaskOfViews_getD (xyz : List P3) (views : List View) (i : ℕ)
    (hi : i < xyz.length) :
    (keepMaskOfViews xyz views).getD i false
      = decide ((views.length : ℚ) * viewThreshold
          ≤ ((gaussianViewCounter xyz views).getD i 0 : ℚ)) := by
  unfold keepMaskOfViews
  have hlen : i < (gaussianViewCounter xyz views).length := by
    rw [gaussianViewCounter_length]; exact hi
  rw [List.getD_eq_getElem _ _ (by simpa using hlen), List.getElem_map,
    List.getD_eq_getElem _ _ hlen]

/-- Claim C2: in `remove_gaussians_with_mask` the visibility counter of a
gaussian equals the number of views whose `visCond` holds (projection in
image bounds AND positive alpha mask), the output positions are the input
positions filtered by the survival mask, and with the in-code threshold
`VIEW_THRESHOLD = 1.0` the survival mask holds exactly when the counter
reaches the total number of views. -/
theorem mask_visibility_pruning {α β γ δ : Type} (g : Gaussians α β γ δ)
    (views : List View) (i : ℕ) (hi : i < g.xyz.length) :
    (gaussianViewCounter g.xyz views).getD i 0
        = views.countP (fun vw => visCond vw (g.xyz.getD i ⟨0, 0, 0⟩)) ∧
    (removeGaussiansWithMask g views).xyz
        = maskSelect (keepMaskOfViews g.xyz views) g.xyz ∧
    ((keepMaskOfViews g.xyz views).getD i false = true ↔
      views.length ≤ (gaussianViewCounter g.xyz views).getD i 0) := by
  refine ⟨gaussianViewCounter_getD g.xyz views i hi, rfl, ?_⟩
  rw [keepMaskOfViews_getD g.xyz views i hi]
  simp only [viewThreshold, mul_one, decide_eq_true_eq]
  exact_mod_cast Iff.rfl

/-- The identity intrinsics/extrinsics matrix used by witnesses. -/
def kIdent : Mat3 := ⟨1, 0, 0, 0, 1, 0, 0, 0, 1⟩

/-- A concrete view: a 2×2 image whose alpha mask is positive only at the
pixel (0, 0). -/
def viewEx : View :=
  ⟨2, 2, kIdent, kIdent, ⟨0, 0, 0⟩,
   fun r c => if r = 0 && c = 0 then 1 else 0⟩

/-- Witness for C2 at the first gaussian of a concrete set and a single
concrete view. -/
theorem mask_visibility_pruning_witness :
    0 < gAlignedEx.xyz.length ∧
    ((gaussianViewCounter gAlignedEx.xyz [viewEx]).getD 0 0
        = [viewEx].countP
            (fun vw => visCond vw (gAlignedEx.xyz.getD 0 ⟨0, 0, 0⟩)) ∧
     (removeGaussiansWithMask gAlignedEx [viewEx]).xyz
        = maskSelect (keepMaskOfViews gAlignedEx.xyz [viewEx]) gAlignedEx.xyz ∧
     ((keepMaskOfViews gAlignedEx.xyz [viewEx]).getD 0 false = true ↔
       [viewEx].length
         ≤ (gaussianViewCounter gAlignedEx.xyz [viewEx]).getD 0 0)) :=
  ⟨by decide, mask_visibility_pruning gAlignedEx [viewEx] 0 (by decide)⟩

lemma getD_map_range {α : Type} (n i : ℕ) (hi : i < n) (f : ℕ → α) (d : α) :
    ((List.range n).map f).getD i d = f i := by
  rw [List.getD_eq_getElem _ _ (by simpa using hi), List.getElem_map,
    List.getElem_range]

/-- The constant jitter oracle used by witnesses. -/
def rndZero : ℕ → ℕ → ℚ × ℚ := fun _ _ => (0, 0)

/-- A second jitter oracle, used to exhibit independence from the random
draws. -/
def rndHalf : ℕ → ℕ → ℚ × ℚ := fun _ _ => (1/2, 1/2)

/-- Counterexample to claim C5 as stated: with anti-aliasing factor 2 the
call scales the caller's `K` in place, so the final `K` differs from the
input (`fx` becomes 2 instead of 1). -/
theorem ray_directions_mutate_K :
    (getRayDirections 1 1 kIdent false 2 rndZero).1.a00 = 2 ∧
    kIdent.a00 = 1 ∧ (2 : ℚ) ≠ 1 := by
  refine ⟨?_, rfl, by norm_num⟩
  norm_num [getRayDirections, scaleKForAA, kIdent]

/-- Claim C5 amended: without supersampling (`anti_aliasing_factor ≤ 1`)
`get_ray_directions` leaves its `K` argument unchanged, its non-random
output is independent of the jitter oracle, and each pixel's direction is
the closed-form value ((u-cx+0.5)/fx, (v-cy+0.5)/fy, 1). -/
theorem ray_directions_pure_no_supersampling (H W : ℕ) (K : Mat3) (aaf : ℚ)
    (rnd rnd2 : ℕ → ℕ → ℚ × ℚ) (h : aaf ≤ 1) :
    (getRayDirections H W K false aaf rnd).1 = K ∧
    getRayDirections H W K false aaf rnd
      = getRayDirections H W K false aaf rnd2 ∧
    (∀ v u : ℕ, v < H → u < W →
      (((getRayDirections H W K false aaf rnd).2.getD v []).getD u (0, 0, 0))
        = (((u : ℚ) - K.a02 + 1/2) / K.a00,
           ((v : ℚ) - K.a12 + 1/2) / K.a11, (1 : ℚ))) := by
  have hno : ¬ (1 < aaf) := not_lt.mpr h
  refine ⟨?_, ?_, ?_⟩
  · simp [getRayDirections, hno]
  · simp [getRayDirections, hno]
  · intro v u hv hu
    have hgrid : (getRayDirections H W K false aaf rnd).2
        = (List.range H).map (fun (v : ℕ) => (List.range W).map (fun (u : ℕ) =>
            (((u : ℚ) - K.a02 + 1/2) / K.a00,
             ((v : ℚ) - K.a12 + 1/2) / K.a11, (1 : ℚ)))) := by
      simp [getRayDirections, hno]
    rw [hgrid, getD_map_range H v hv _ _, getD_map_range W u hu _ _]

/-- Witness for the amended C5 at a concrete 2×2 image with identity
intrinsics, evaluated at pixel (v, u) = (0, 1). -/
theorem ray_directions_pure_witness :
    (1 : ℚ) ≤ 1 ∧
    (getRayDirections 2 2 kIdent false 1 rndZero).1 = kIdent ∧
    getRayDirections 2 2 kIdent false 1 rndZero
      = getRayDirections 2 2 kIdent false 1 rndHalf ∧
    (((getRayDirections 2 2 kIdent false 1 rndZero).2.getD 0 []).getD 1
        (0, 0, 0))
      = (((1 : ℚ) - kIdent.a02 + 1/2) / kIdent.a00,
         ((0 : ℚ) - kIdent.a12 + 1/2) / kIdent.a11, (1 : ℚ)) :=
  ⟨le_refl 1,
   (ray_directions_pure_no_supersampling 2 2 kIdent 1 rndZero rndHalf
     (le_refl 1)).1,
   (ray_directions_pure_no_supersampling 2 2 kIdent 1 rndZero rndHalf
     (le_refl 1)).2.1,
   (ray_directions_pure_no_supersampling 2 2 kIdent 1 rndZero rndHalf
     (le_refl 1)).2.2 0 1 (by norm_num) (by norm_num)⟩

/-- Witness for the amended C8 at concrete split boundaries. -/
theorem frame_zero_never_evaluated_witness :
    1 ≤ 1 ∧
    (0 ∉ framesEvaluated 1 1 ∧ 0 ∉ framesEvaluated 1 1 ∧
     (1 = v8Ex.length →
       mainCase v8Ex p8Ex vis8Ex m8Ex 0 1 1
         = Except.ok
             (evaluatePrediction 1 1 v8Ex p8Ex vis8Ex m8Ex
               ((p8Ex.getD 0 []).length + 0),
              evaluatePrediction 1 1 v8Ex p8Ex vis8Ex m8Ex
               ((p8Ex.getD 0 []).length + 0)))) :=
  ⟨le_refl 1,
   frame_zero_never_evaluated 1 1 (le_refl 1) v8Ex p8Ex vis8Ex m8Ex 0⟩

end PhysTwin
